import Mathlib

/-!
# Verification of the real-estate-heatmap fetch/cache pipeline and tools

Shallow embedding of the repository `takurot/real-estate-heatmap`.

* `src/mlit_mcp/tools/get_market_trends.py` is embedded directly
  (`MarketTrend`, `GetMarketTrendsResponse`, `marketTrendsRun`).
* `src/example/visualize_market.py` provides `resolve_resource`, embedded
  directly.
* The fetch/cache core (`mlit_mcp/http_client.py`, `mlit_mcp/cache.py`,
  the per-tool fetch wrappers) is not part of the source tree given here,
  only its tests and callers are; those components are modelled from the
  specification, as marked on each definition.

Python floats are modelled by `ℝ`; rounding to four decimal places is
modelled by `round4` (Python's banker's rounding differs from `round`
only at exact half-way points, which no statement below depends on).
-/

namespace RealEstateHeatmap

/-! ## Embedding of `src/mlit_mcp/tools/get_market_trends.py` -/

/-- `MarketTrend` enum (get_market_trends.py lines 18-23). -/
inductive MarketTrend where
  | uptrend
  | downtrend
  | flat
  | volatile
  | unknown
deriving DecidableEq, Repr

/-- `YearlyData` model (lines 78-83); `price` is a Python `int`,
`yoy_change` an optional float. -/
structure YearlyData where
  year : ℕ
  price : ℤ
  yoy_change : Option ℝ

/-- `GetMarketTrendsResponse` model (lines 86-98).  Field defaults
(`cagr = None`, `average_yoy = None`, `yearly_data = []`) are written
explicitly at each construction site. -/
structure GetMarketTrendsResponse where
  cagr : Option ℝ
  average_yoy : Option ℝ
  trend : MarketTrend
  yearly_data : List YearlyData

/-- Python's `round(x, 4)`. -/
noncomputable def round4 (x : ℝ) : ℝ := (round (x * 10000) : ℤ) / 10000

/-- One step of Python's `sorted`: insert a year into an ascending list. -/
def insertYear (y : ℕ) : List ℕ → List ℕ
  | [] => [y]
  | z :: rest => if y ≤ z then y :: z :: rest else z :: insertYear y rest

/-- `sorted([int(y) for y in price_by_year.keys()])` (line 147),
with the dict keys already parsed to naturals. -/
def sortYears : List ℕ → List ℕ
  | [] => []
  | y :: rest => insertYear y (sortYears rest)

/-- The summary's `price_by_year` dict is modelled as an association list
from year to price; this is the lookup `price_by_year[str(year)]`. -/
def priceAt (pby : List (ℕ × ℤ)) (y : ℕ) : ℤ := ((pby.lookup y).getD 0)

def sortedYears (pby : List (ℕ × ℤ)) : List ℕ := sortYears (pby.map Prod.fst)

/-- `first_year = sorted_years[0]` (line 172). -/
def firstYear (pby : List (ℕ × ℤ)) : ℕ := (sortedYears pby).headD 0

/-- `last_year = sorted_years[-1]` (line 173). -/
def lastYear (pby : List (ℕ × ℤ)) : ℕ := (sortedYears pby).getLastD 0

/-- `num_years = last_year - first_year` (line 174). -/
def numYears (pby : List (ℕ × ℤ)) : ℕ := lastYear pby - firstYear pby

/-- The CAGR value `(last_price / first_price) ** (1 / num_years) - 1`
(line 180), float power modelled by real `rpow`. -/
noncomputable def cagrVal (pby : List (ℕ × ℤ)) : ℝ :=
  ((priceAt pby (lastYear pby) : ℝ) / (priceAt pby (firstYear pby) : ℝ)) ^
      ((1 : ℝ) / (numYears pby : ℝ)) - 1

/-- Lines 170-180: `cagr` stays `None` unless `num_years > 0` and
`first_price > 0`. -/
noncomputable def cagrOpt (pby : List (ℕ × ℤ)) : Option ℝ :=
  if 0 < numYears pby ∧ 0 < priceAt pby (firstYear pby) then some (cagrVal pby)
  else none

/-- Lines 185-193: trend selection from the computed CAGR.  The enum
member `volatile` appears in no branch (the volatility check at lines
195-197 is commented out in the source). -/
noncomputable def trendOf (cagr : Option ℝ) : MarketTrend :=
  match cagr with
  | none => .unknown
  | some c =>
      if (3 / 100 : ℝ) ≤ c then .uptrend
      else if c ≤ -(3 / 100 : ℝ) then .downtrend
      else .flat

/-- The loop at lines 150-168: walk the sorted years carrying the
previous price, producing the `yearly_data` entries and the collected
`yoy_changes`. -/
noncomputable def buildYearly (price : ℕ → ℤ) : Option ℤ → List ℕ → List YearlyData × List ℝ
  | _, [] => ([], [])
  | prev, y :: rest =>
      let p := price y
      let yoy : Option ℝ :=
        match prev with
        | some pp => if 0 < pp then some (((p : ℝ) - (pp : ℝ)) / (pp : ℝ)) else none
        | none => none
      let tail := buildYearly price (some p) rest
      (⟨y, p, Option.map round4 yoy⟩ :: tail.1,
       (match yoy with | some v => [v] | none => []) ++ tail.2)

noncomputable def yearlyDataOf (pby : List (ℕ × ℤ)) : List YearlyData :=
  (buildYearly (priceAt pby) none (sortedYears pby)).1

noncomputable def yoyChanges (pby : List (ℕ × ℤ)) : List ℝ :=
  (buildYearly (priceAt pby) none (sortedYears pby)).2

/-- `avg_yoy = sum(yoy_changes) / len(yoy_changes) if yoy_changes else None`
(line 183). -/
noncomputable def avgYoy (pby : List (ℕ × ℤ)) : Option ℝ :=
  if yoyChanges pby = [] then none
  else some ((yoyChanges pby).sum / ((yoyChanges pby).length : ℝ))

/-- `GetMarketTrendsTool.run` (lines 130-204), after the call to
`SummarizeTransactionsTool` (an external collaborator), as a function of
the summary's `price_by_year` mapping.  An empty mapping short-circuits
at lines 143-144 to `GetMarketTrendsResponse(trend=MarketTrend.UNKNOWN)`
with all defaults. -/
noncomputable def marketTrendsRun (pby : List (ℕ × ℤ)) : GetMarketTrendsResponse :=
  if pby = [] then ⟨none, none, .unknown, []⟩
  else
    { cagr := Option.map round4 (cagrOpt pby)
      average_yoy := Option.map round4 (avgYoy pby)
      trend := trendOf (cagrOpt pby)
      yearly_data := yearlyDataOf pby }

/-! ## Base64 transport encoding

Modelled from the spec: §4.5 requires binary payloads below the size
bound to be "base64-encoded for inline transport" with the round-trip
guarantee `decode(encode(b)) == b`; the repository's encoder/decoder
(`mlit_mcp/tools/gis_helpers.py`, exercised by
`tests/tools/test_fetch_school_districts.py`) is not in the source tree
given here.  Standard RFC 4648 base64 over byte lists; bytes are
naturals below 256. -/

/-- The standard base64 alphabet: sextet value to character. -/
def sextetChar (n : ℕ) : Char :=
  if n < 26 then Char.ofNat (65 + n)
  else if n < 52 then Char.ofNat (97 + (n - 26))
  else if n < 62 then Char.ofNat (48 + (n - 52))
  else if n = 62 then '+'
  else '/'

/-- Inverse table: character back to sextet value. -/
def sextetVal (c : Char) : ℕ :=
  if 'A' ≤ c ∧ c ≤ 'Z' then c.toNat - 65
  else if 'a' ≤ c ∧ c ≤ 'z' then c.toNat - 97 + 26
  else if '0' ≤ c ∧ c ≤ '9' then c.toNat - 48 + 52
  else if c = '+' then 62
  else 63

/-- Base64 encoding of a byte list, with `=` padding. -/
def b64encode : List ℕ → List Char
  | [] => []
  | [b1] => [sextetChar (b1 / 4), sextetChar (b1 % 4 * 16), '=', '=']
  | [b1, b2] =>
      [sextetChar (b1 / 4), sextetChar (b1 % 4 * 16 + b2 / 16),
       sextetChar (b2 % 16 * 4), '=']
  | b1 :: b2 :: b3 :: rest =>
      sextetChar (b1 / 4) :: sextetChar (b1 % 4 * 16 + b2 / 16) ::
      sextetChar (b2 % 16 * 4 + b3 / 64) :: sextetChar (b3 % 64) ::
      b64encode rest

/-- Base64 decoding: consume four characters at a time, honouring `=`
padding in the final group. -/
def b64decode : List Char → List ℕ
  | c1 :: c2 :: c3 :: c4 :: rest =>
      if c3 = '=' then [sextetVal c1 * 4 + sextetVal c2 / 16]
      else if c4 = '=' then
        [sextetVal c1 * 4 + sextetVal c2 / 16,
         sextetVal c2 % 16 * 16 + sextetVal c3 / 4]
      else
        (sextetVal c1 * 4 + sextetVal c2 / 16) ::
        (sextetVal c2 % 16 * 16 + sextetVal c3 / 4) ::
        (sextetVal c3 % 4 * 64 + sextetVal c4) ::
        b64decode rest
  | _ => []

theorem sextetVal_sextetChar : ∀ n < 64, sextetVal (sextetChar n) = n := by decide

theorem sextetChar_ne_pad : ∀ n < 64, sextetChar n ≠ '=' := by decide

/-! ## Two-tier cache

Modelled from the spec: §4.2 `InMemoryTTLCache` and §4.3
`BinaryFileCache` (the repository's `mlit_mcp/cache.py`, imported by
`tests/tools/test_list_municipalities.py` and
`example/visualize_market.py`, is not in the source tree given here).
Keys, filenames and URIs are modelled as `List Char` (Python `str`);
time is a natural number of seconds.  §4.2's capacity-driven LRU
eviction and §4.3's `CacheWriteError` degradation are not exercised by
any claim and are not modelled. -/

abbrev Key := List Char

/-- `CacheEntry<V>` of the in-memory tier: a value plus `expires_at`. -/
structure TTLEntry (V : Type) where
  value : V
  expires_at : ℕ

/-- `InMemoryTTLCache.get` with lazy expiry: a live entry is returned
unchanged; an expired entry is treated as absent and removed.  Returns
the lookup outcome together with the updated store. -/
def memGet {V : Type} (cache : List (Key × TTLEntry V)) (k : Key) (now : ℕ) :
    Option V × List (Key × TTLEntry V) :=
  match cache.lookup k with
  | none => (none, cache)
  | some e =>
      if now < e.expires_at then (some e.value, cache)
      else (none, cache.filter (fun kv => kv.1 != k))

/-- `InMemoryTTLCache.set`: insert with `expires_at = now + ttl`,
replacing any previous entry for the key. -/
def memSet {V : Type} (cache : List (Key × TTLEntry V)) (k : Key) (v : V)
    (ttl now : ℕ) : List (Key × TTLEntry V) :=
  (k, ⟨v, now + ttl⟩) :: cache.filter (fun kv => kv.1 != k)

/-- `FileCacheEntry`: a durable byte blob plus its write time
(the file's mtime, used for TTL checks). -/
structure FileEntry where
  bytes : List ℕ
  mtime : ℕ

/-- `BinaryFileCache.get`: fresh iff `now < mtime + ttl`; an expired
file is treated as absent and deleted (lazy expiry). -/
def fileGet (cache : List (Key × FileEntry)) (name : Key) (ttl now : ℕ) :
    Option (List ℕ) × List (Key × FileEntry) :=
  match cache.lookup name with
  | none => (none, cache)
  | some e =>
      if now < e.mtime + ttl then (some e.bytes, cache)
      else (none, cache.filter (fun kv => kv.1 != name))

/-- `BinaryFileCache.put`: atomically write the blob under the given
name with `mtime = now`, replacing any previous file. -/
def filePut (cache : List (Key × FileEntry)) (name : Key) (b : List ℕ)
    (now : ℕ) : List (Key × FileEntry) :=
  (name, ⟨b, now⟩) :: cache.filter (fun kv => kv.1 != name)

/-! ## Cache-key derivation

Modelled from the spec: §4.1 — a pure function of the endpoint and a
canonical (sorted, stably serialized) representation of the parameters,
which are already normalized to strings. -/

/-- Serialize one normalized parameter as `key=value`. -/
def serializeParam (kv : String × String) : String := kv.1 ++ "=" ++ kv.2

/-- `derive(endpoint, params)`: endpoint plus the sorted `&`-joined
serialized parameters.  Sorting goes through the multiset of serialized
parameters, so the result depends only on the set of key/value pairs. -/
def derive (endpoint : String) (params : List (String × String)) : String :=
  endpoint ++ "?" ++
    String.intercalate "&"
      (Multiset.sort (fun a b : String => a ≤ b) (params.map serializeParam))

/-! ## Fetch orchestrator

Modelled from the spec: §4.4 — derive the key, consult the in-memory
tier then the file tier unless `force_refresh` is set, otherwise perform
the network call and populate the tier matching the payload's shape.
Following §9, the transport's response is a closed tagged variant
(structured JSON value vs. binary bytes); the JSON value type is a
parameter `V`.  The network is modelled by passing each call's upstream
response as an argument and counting performed calls in `netCalls`. -/

/-- `RequestDescriptor{endpoint, params}` (§6); `force_refresh` is
passed to `fetch` separately. -/
structure RequestDescriptor where
  endpoint : String
  params : List (String × String)

/-- The transport's classified response (§9): `Structured(value)` or
`Binary(bytes)`. -/
inductive UpstreamPayload (V : Type) where
  | structured (v : V)
  | binary (b : List ℕ)

/-- `FetchResult`: decoded JSON in `data`, or the byte payload's cache
location in `file_path`, plus `from_cache` (§3; field names as in
`tests/tools/test_fetch_school_districts.py`). -/
structure FetchResult (V : Type) where
  data : Option V
  file_path : Option Key
  from_cache : Bool

/-- The orchestrator's process-wide state: the two cache tiers and the
number of upstream network calls performed so far. -/
structure OrchState (V : Type) where
  mem : List (Key × TTLEntry V)
  files : List (Key × FileEntry)
  netCalls : ℕ

/-- The cache key of a request descriptor, as a `List Char`. -/
def requestKey (d : RequestDescriptor) : Key := (derive d.endpoint d.params).data

/-- Deterministic cache file name for a key (§4.3; the fixed-width
digest is modelled as an injective suffixing). -/
def fileNameOf (k : Key) : Key := k ++ ".bin".data

/-- `fetch(descriptor, force_refresh)` (§4.4): cache consultation order,
miss handling and cache population.  `upstream` is the response the
network would return for this call. -/
def fetch {V : Type} (memTtl fileTtl : ℕ) (d : RequestDescriptor)
    (force_refresh : Bool) (now : ℕ) (upstream : UpstreamPayload V)
    (s : OrchState V) : FetchResult V × OrchState V :=
  if force_refresh = false ∧ ((memGet s.mem (requestKey d) now).1).isSome = true then
    ({ data := (memGet s.mem (requestKey d) now).1, file_path := none,
       from_cache := true }, s)
  else if force_refresh = false ∧
      ((fileGet s.files (fileNameOf (requestKey d)) fileTtl now).1).isSome = true then
    ({ data := none, file_path := some (fileNameOf (requestKey d)),
       from_cache := true }, s)
  else
    match upstream with
    | .structured v =>
        ({ data := some v, file_path := none, from_cache := false },
         ⟨memSet s.mem (requestKey d) v memTtl now, s.files, s.netCalls + 1⟩)
    | .binary b =>
        ({ data := none, file_path := some (fileNameOf (requestKey d)),
           from_cache := false },
         ⟨s.mem, filePut s.files (fileNameOf (requestKey d)) b now, s.netCalls + 1⟩)

/-! ## Resource materialization

Modelled from the spec: §4.5 — payloads at or below one mebibyte are
returned inline (binary ones base64-encoded), larger ones are exposed as
a `resource://mlit/<category>/<name>` URI with `is_resource` set and the
payload's byte size; resolution strips the namespace prefix and reads
the remainder as the cache filename, failing with the
`ResourceNotFoundError` outcome when the file is gone (the repository's
tool-side implementation, exercised by
`tests/tools/test_fetch_school_districts.py`, is not in the source tree
given here). -/

/-- The externalization threshold: one mebibyte. -/
def MEBIBYTE : ℕ := 1048576

/-- A completed fetch's payload as seen by materialization: a decoded
JSON value, or the cached file's name and bytes. -/
inductive FetchedPayload (V : Type) where
  | structuredP (v : V)
  | binaryP (name : Key) (bytes : List ℕ)

/-- A materialized response: inline JSON, inline base64 text, or a
resource reference carrying the URI and the payload's byte size. -/
inductive MaterializedPayload (V : Type) where
  | inlineJson (v : V)
  | inlineBase64 (s : List Char)
  | resource (uri : Key) (size_bytes : ℕ)

/-- `resource://mlit/<category>/<name>`. -/
def resourceUri (category name : Key) : Key :=
  "resource://mlit/".data ++ category ++ "/".data ++ name

/-- `materialize(payload, category)` (§4.5): JSON is returned as
structured data; binary payloads at or below `MEBIBYTE` bytes are
base64-encoded inline, larger ones become a resource reference. -/
def materialize {V : Type} (category : Key) : FetchedPayload V → MaterializedPayload V
  | .structuredP v => .inlineJson v
  | .binaryP name b =>
      if b.length ≤ MEBIBYTE then .inlineBase64 (b64encode b)
      else .resource (resourceUri category name) b.length

/-- `is_resource` marker of a materialized response. -/
def MaterializedPayload.is_resource {V : Type} : MaterializedPayload V → Bool
  | .resource _ _ => true
  | _ => false

/-- The expected stale-reference outcome of §4.5/§7. -/
inductive ResourceLookupError where
  | resourceNotFound
deriving DecidableEq

/-- Reference resolution (§4.5): strip the `resource://mlit/<category>/`
namespace, read the remainder as the cache filename, and look it up in
the file tier (with its lazy TTL check); a missing or expired file is
the `ResourceNotFoundError` outcome. -/
def resolveResource (category uri : Key) (files : List (Key × FileEntry))
    (fileTtl now : ℕ) : Except ResourceLookupError (List ℕ) :=
  let pre : Key := "resource://mlit/".data ++ category ++ "/".data
  if pre.isPrefixOf uri then
    match (fileGet files (uri.drop pre.length) fileTtl now).1 with
    | some b => .ok b
    | none => .error .resourceNotFound
  else .error .resourceNotFound

/-! ## Embedding of `resolve_resource` in `src/example/visualize_market.py`

The script's own resolver (lines 46-62).  The cache directory's contents
are modelled as a map from filename to the parsed JSON the file holds
(`json.load` of an existing file succeeds).  The Python function raises
`ValueError` for a URI outside its namespace; for a missing file it only
logs a warning (lines 54-58) and then calls `open` unconditionally,
which raises `FileNotFoundError`.  `resourceNotFoundError` is the
outcome the specification prescribes instead (§4.5/§7); no code in the
source tree produces it. -/

inductive PyErr where
  | valueError
  | fileNotFoundError
  | resourceNotFoundError
deriving DecidableEq

/-- Python's `s.replace(old, "")` (fuel-indexed scan removing every
non-overlapping occurrence of `old`, left to right). -/
def stripAllAux (old : List Char) : ℕ → List Char → List Char
  | 0, s => s
  | _ + 1, [] => []
  | fuel + 1, c :: rest =>
      if old.isPrefixOf (c :: rest) then
        stripAllAux old fuel ((c :: rest).drop old.length)
      else c :: stripAllAux old fuel rest

def pyReplaceDel (old s : List Char) : List Char := stripAllAux old s.length s

/-- The prefix hard-coded in `resolve_resource` (line 48). -/
def txPre : Key := "resource://mlit/transactions/".data

/-- `resolve_resource(uri, cache_dir)` (visualize_market.py lines
46-62), with `fs` the contents of `cache_dir`. -/
def resolve_resource {A : Type} (uri : Key) (fs : Key → Option A) : Except PyErr A :=
  if ¬ txPre.isPrefixOf uri then .error .valueError
  else
    match fs (pyReplaceDel txPre uri) with
    | some v => .ok v
    | none => .error .fileNotFoundError

/-! ## Claims -/

/-- Claim C9: for every input whose transaction summary contains no
per-year price data (`price_by_year` empty), `GetMarketTrendsTool.run`
returns `trend = unknown`, `cagr = None`, `average_yoy = None` and an
empty `yearly_data` list. -/
theorem c9_no_data_unknown :
    marketTrendsRun [] = ⟨none, none, .unknown, []⟩ := by
  simp [marketTrendsRun]

/-- The trend branch of lines 185-193, characterised for a computed
CAGR value. -/
theorem trendOf_some_iff (c : ℝ) :
    (trendOf (some c) = .uptrend ↔ (3 / 100 : ℝ) ≤ c) ∧
    (trendOf (some c) = .downtrend ↔ c ≤ -(3 / 100 : ℝ)) ∧
    (trendOf (some c) = .flat ↔ -(3 / 100 : ℝ) < c ∧ c < (3 / 100 : ℝ)) := by
  have e : trendOf (some c) =
      if (3 / 100 : ℝ) ≤ c then MarketTrend.uptrend
      else if c ≤ -(3 / 100 : ℝ) then MarketTrend.downtrend
      else MarketTrend.flat := rfl
  rcases le_or_lt (3 / 100 : ℝ) c with hA | hA
  · rw [e, if_pos hA]
    exact ⟨⟨fun _ => hA, fun _ => rfl⟩,
      ⟨fun h => absurd h (by decide), fun h => absurd h (by linarith)⟩,
      ⟨fun h => absurd h (by decide), fun h => absurd h.2 (by linarith)⟩⟩
  · rcases le_or_lt c (-(3 / 100 : ℝ)) with hB | hB
    · rw [e, if_neg (not_le.mpr hA), if_pos hB]
      exact ⟨⟨fun h => absurd h (by decide), fun h => absurd h (by linarith)⟩,
        ⟨fun _ => hB, fun _ => rfl⟩,
        ⟨fun h => absurd h (by decide), fun h => absurd h.1 (by linarith)⟩⟩
    · rw [e, if_neg (not_le.mpr hA), if_neg (not_le.mpr hB)]
      exact ⟨⟨fun h => absurd h (by decide), fun h => absurd h (by linarith)⟩,
        ⟨fun h => absurd h (by decide), fun h => absurd h (by linarith)⟩,
        ⟨fun _ => ⟨hB, hA⟩, fun _ => rfl⟩⟩

/-- Claim C10: whenever `GetMarketTrendsTool.run` computes a CAGR (the
guard at lines 176-179: a positive year span — i.e. at least two
distinct years — and a positive first-year price), the returned trend is
`uptrend` iff `cagr ≥ 0.03`, `downtrend` iff `cagr ≤ -0.03`, and `flat`
otherwise; and no input whatsoever yields `volatile`. -/
theorem c10_trend_classification (pby : List (ℕ × ℤ)) (h0 : pby ≠ [])
    (h1 : 0 < numYears pby) (h2 : 0 < priceAt pby (firstYear pby)) :
    (((marketTrendsRun pby).trend = .uptrend ↔ (3 / 100 : ℝ) ≤ cagrVal pby) ∧
     ((marketTrendsRun pby).trend = .downtrend ↔ cagrVal pby ≤ -(3 / 100 : ℝ)) ∧
     ((marketTrendsRun pby).trend = .flat ↔
        -(3 / 100 : ℝ) < cagrVal pby ∧ cagrVal pby < (3 / 100 : ℝ))) ∧
    ∀ q : List (ℕ × ℤ), (marketTrendsRun q).trend ≠ .volatile := by
  constructor
  · have htrend : (marketTrendsRun pby).trend = trendOf (some (cagrVal pby)) := by
      simp [marketTrendsRun, h0, cagrOpt, h1, h2]
    rw [htrend]
    exact trendOf_some_iff (cagrVal pby)
  · intro q
    by_cases hq : q = []
    · simp [marketTrendsRun, hq]
    · have ht : (marketTrendsRun q).trend = trendOf (cagrOpt q) := by
        simp [marketTrendsRun, hq]
      rw [ht]
      cases cagrOpt q with
      | none => simp [trendOf]
      | some c =>
          have e : trendOf (some c) =
              if (3 / 100 : ℝ) ≤ c then MarketTrend.uptrend
              else if c ≤ -(3 / 100 : ℝ) then MarketTrend.downtrend
              else MarketTrend.flat := rfl
          rw [e]
          split_ifs <;> decide

/-- Witness for C10 at the concrete summary
`{2020: 100, 2021: 200}`. -/
theorem c10_witness :
    0 < numYears [((2020 : ℕ), (100 : ℤ)), (2021, 200)] ∧
    ((marketTrendsRun [((2020 : ℕ), (100 : ℤ)), (2021, 200)]).trend = .uptrend ↔
      (3 / 100 : ℝ) ≤ cagrVal [((2020 : ℕ), (100 : ℤ)), (2021, 200)]) :=
  ⟨by decide,
   ((c10_trend_classification [((2020 : ℕ), (100 : ℤ)), (2021, 200)]
      (by decide) (by decide) (by decide)).1).1⟩

/-- Removing every pair with a given key from an association list makes
that key absent. -/
theorem lookup_filter_ne {β : Type} (l : List (Key × β)) (k : Key) :
    (l.filter (fun kv => kv.1 != k)).lookup k = none := by
  induction l with
  | nil => rfl
  | cons kv rest ih =>
      by_cases hk : kv.1 = k
      · simp [List.filter_cons, hk, ih]
      · have h1 : (kv.1 != k) = true := by simp [hk]
        have h2 : (k == kv.1) = false := by
          simp only [beq_eq_false_iff_ne, ne_eq]
          exact fun h => hk h.symm
        simp [List.filter_cons, h1, List.lookup, h2, ih]

/-- Claim C6: cache-key derivation is a pure function invariant under
parameter ordering: permuted parameter lists with the same key/value
pairs derive the same key. -/
theorem c6_derive_order_invariant (e : String) (p1 p2 : List (String × String))
    (h : p1.Perm p2) : derive e p1 = derive e p2 := by
  unfold derive
  have hm : ((p1.map serializeParam : List String) : Multiset String) =
      ((p2.map serializeParam : List String) : Multiset String) :=
    Multiset.coe_eq_coe.mpr (h.map serializeParam)
  rw [hm]

/-- Witness for C6: the same two parameters supplied in both orders. -/
theorem c6_witness :
    derive "XIT001" [("area", "13"), ("year", "2020")] =
      derive "XIT001" [("year", "2020"), ("area", "13")] :=
  c6_derive_order_invariant "XIT001" _ _ (List.Perm.swap _ _ _)

/-- Claim C7: an entry inserted at time `t` with `ttl = T` is returned
by `get` at every time strictly before `t + T`; at every time strictly
after `t + T` the key is treated as absent and the stale entry is
removed from the store. -/
theorem c7_ttl_correctness {V : Type} (cache : List (Key × TTLEntry V))
    (k : Key) (v : V) (T t tEarly tLate : ℕ)
    (hEarly : tEarly < t + T) (hLate : t + T < tLate) :
    (memGet (memSet cache k v T t) k tEarly).1 = some v ∧
    (memGet (memSet cache k v T t) k tLate).1 = none ∧
    ((memGet (memSet cache k v T t) k tLate).2).lookup k = none := by
  have hlk : (memSet cache k v T t).lookup k = some ⟨v, t + T⟩ := by
    simp [memSet, List.lookup]
  refine ⟨?_, ?_, ?_⟩
  · simp [memGet, hlk, hEarly]
  · simp [memGet, hlk, Nat.not_lt.mpr (Nat.le_of_lt hLate)]
  · simp only [memGet, hlk]
    rw [if_neg (by omega)]
    exact lookup_filter_ne _ _

/-- Witness for C7: `ttl = 10`, inserted at `t = 0`, read at `9`
and `11`. -/
theorem c7_witness :
    (memGet (memSet ([] : List (Key × TTLEntry ℕ)) "k".data 7 10 0) "k".data 9).1 =
      some 7 :=
  (c7_ttl_correctness [] "k".data 7 10 0 9 11 (by decide) (by decide)).1

/-- Byte-exact round-trip of the base64 transport encoding. -/
theorem b64_roundtrip : ∀ b : List ℕ, (∀ x ∈ b, x < 256) → b64decode (b64encode b) = b
  | [], _ => rfl
  | [b1], h => by
      have hb1 : b1 < 256 := h b1 (by simp)
      have e1 := sextetVal_sextetChar (b1 / 4) (by omega)
      have e2 := sextetVal_sextetChar (b1 % 4 * 16) (by omega)
      simp [b64encode, b64decode, e1, e2]
      omega
  | [b1, b2], h => by
      have hb1 : b1 < 256 := h b1 (by simp)
      have hb2 : b2 < 256 := h b2 (by simp)
      have e1 := sextetVal_sextetChar (b1 / 4) (by omega)
      have e2 := sextetVal_sextetChar (b1 % 4 * 16 + b2 / 16) (by omega)
      have e3 := sextetVal_sextetChar (b2 % 16 * 4) (by omega)
      have n3 := sextetChar_ne_pad (b2 % 16 * 4) (by omega)
      simp [b64encode, b64decode, n3, e1, e2, e3]
      omega
  | b1 :: b2 :: b3 :: rest, h => by
      have hb1 : b1 < 256 := h b1 (by simp)
      have hb2 : b2 < 256 := h b2 (by simp)
      have hb3 : b3 < 256 := h b3 (by simp)
      have ih := b64_roundtrip rest (fun x hx => h x (by simp [hx]))
      have e1 := sextetVal_sextetChar (b1 / 4) (by omega)
      have e2 := sextetVal_sextetChar (b1 % 4 * 16 + b2 / 16) (by omega)
      have e3 := sextetVal_sextetChar (b2 % 16 * 4 + b3 / 64) (by omega)
      have e4 := sextetVal_sextetChar (b3 % 64) (by omega)
      have n3 := sextetChar_ne_pad (b2 % 16 * 4 + b3 / 64) (by omega)
      have n4 := sextetChar_ne_pad (b3 % 64) (by omega)
      simp [b64encode, b64decode, n3, n4, e1, e2, e3, e4, ih]
      omega

/-- A list is a `isPrefixOf` of itself followed by anything. -/
theorem isPrefixOf_append_self (l1 l2 : List Char) :
    l1.isPrefixOf (l1 ++ l2) = true := by
  induction l1 with
  | nil => simp [List.isPrefixOf]
  | cons c rest ih => simp [List.isPrefixOf, ih]

/-- Claim C2: materialization returns a binary payload inline iff its
size is at most one mebibyte; at or below the bound it is the inline
base64 encoding, one byte above it is a `resource://mlit/<category>/`
reference carrying `is_resource = true` and the payload's byte size. -/
theorem c2_materialize_threshold (V : Type) (category name : Key) (b : List ℕ) :
    (materialize (V := V) category (.binaryP name b) = .inlineBase64 (b64encode b) ↔
      b.length ≤ MEBIBYTE) ∧
    (MEBIBYTE < b.length →
      materialize (V := V) category (.binaryP name b) =
          .resource (resourceUri category name) b.length ∧
        (materialize (V := V) category (.binaryP name b)).is_resource = true) := by
  by_cases hl : b.length ≤ MEBIBYTE
  · refine ⟨⟨fun _ => hl, fun _ => by simp [materialize, hl]⟩, fun hgt => absurd hl (by omega)⟩
  · have hd : materialize (V := V) category (.binaryP name b) =
        .resource (resourceUri category name) b.length := by
      simp [materialize, hl]
    refine ⟨⟨fun hc => ?_, fun hle => absurd hle hl⟩,
      fun _ => ⟨hd, by rw [hd]; rfl⟩⟩
    rw [hd] at hc
    exact absurd hc (by simp)

/-- Witness for C2 at a payload one byte above the bound. -/
theorem c2_witness :
    materialize (V := ℕ) "school_districts".data
        (.binaryP "f.pbf".data (List.replicate (MEBIBYTE + 1) 0)) =
      .resource (resourceUri "school_districts".data "f.pbf".data)
        (List.replicate (MEBIBYTE + 1) 0).length :=
  ((c2_materialize_threshold ℕ "school_districts".data "f.pbf".data
      (List.replicate (MEBIBYTE + 1) 0)).2
    (by simp [List.length_replicate])).1

/-- Claim C3: for every byte sequence `b`, decoding the inline base64
materialization yields exactly `b`; and when `b` is instead materialized
as a resource reference, resolving the returned URI against the file
tier that holds `b` yields exactly `b`. -/
theorem c3_binary_roundtrip (b : List ℕ) (hb : ∀ x ∈ b, x < 256) :
    b64decode (b64encode b) = b ∧
    ∀ (category name : Key) (files : List (Key × FileEntry))
      (fileTtl now mtime : ℕ), now < mtime + fileTtl →
      ∀ (V : Type) (uri : Key) (sz : ℕ),
        materialize (V := V) category (.binaryP name b) = .resource uri sz →
        resolveResource category uri (filePut files name b mtime) fileTtl now = .ok b := by
  refine ⟨b64_roundtrip b hb, ?_⟩
  intro category name files fileTtl now mtime hfresh V uri sz hmat
  by_cases hl : b.length ≤ MEBIBYTE
  · simp [materialize, hl] at hmat
  · simp only [materialize, if_neg hl] at hmat
    obtain ⟨huri, hsz⟩ := MaterializedPayload.resource.inj hmat
    subst huri
    have hassoc : resourceUri category name =
        ("resource://mlit/".data ++ category ++ "/".data) ++ name := by
      simp [resourceUri, List.append_assoc]
    have hlk : (filePut files name b mtime).lookup name = some ⟨b, mtime⟩ := by
      simp [filePut, List.lookup]
    unfold resolveResource
    rw [hassoc, if_pos (isPrefixOf_append_self _ _), List.drop_left]
    simp [fileGet, hlk, hfresh]

/-- Witness for C3: a four-byte payload round-trips through the inline
encoding, and resolving the resource URI of a payload one byte above the
bound returns the same bytes. -/
theorem c3_witness :
    b64decode (b64encode [0, 1, 127, 255]) = [0, 1, 127, 255] ∧
    resolveResource "transactions".data
        (resourceUri "transactions".data "t.json".data)
        (filePut [] "t.json".data (List.replicate (MEBIBYTE + 1) 0) 0) 10 5 =
      .ok (List.replicate (MEBIBYTE + 1) 0) :=
  ⟨(c3_binary_roundtrip [0, 1, 127, 255] (by decide)).1,
   (c3_binary_roundtrip (List.replicate (MEBIBYTE + 1) 0)
      (fun x hx => by rw [List.eq_of_mem_replicate hx]; omega)).2
      "transactions".data "t.json".data [] 10 5 0 (by decide) ℕ
      (resourceUri "transactions".data "t.json".data)
      (List.replicate (MEBIBYTE + 1) 0).length
      (by
        simp only [materialize]
        rw [if_neg (by simp only [List.length_replicate, MEBIBYTE]; omega)])⟩

/-- Claim C8: every `FetchResult` returned by the orchestrator populates
exactly one of `data` (decoded JSON) and `file_path` (byte payload
location); the two fields are mutually exclusive. -/
theorem c8_fetchresult_exclusive {V : Type} (memTtl fileTtl : ℕ)
    (d : RequestDescriptor) (force : Bool) (now : ℕ) (up : UpstreamPayload V)
    (s : OrchState V) :
    (((fetch memTtl fileTtl d force now up s).1.data).isSome = true ∧
      (fetch memTtl fileTtl d force now up s).1.file_path = none) ∨
    ((fetch memTtl fileTtl d force now up s).1.data = none ∧
      ((fetch memTtl fileTtl d force now up s).1.file_path).isSome = true) := by
  unfold fetch
  split_ifs with h1 h2
  · exact Or.inl ⟨h1.2, rfl⟩
  · exact Or.inr ⟨rfl, rfl⟩
  · cases up with
    | structured v => exact Or.inl ⟨rfl, rfl⟩
    | binary bb => exact Or.inr ⟨rfl, rfl⟩

/-- Claim C1: starting from a state where the key is in neither cache
tier, two sequential fetches of the same descriptor with
`force_refresh = false`, the second within both tiers' TTL windows of
the first, perform exactly one upstream network call in total, and the
second returns `from_cache = true`. -/
theorem c1_at_most_one_network_call {V : Type} (memTtl fileTtl : ℕ)
    (d : RequestDescriptor) (t1 t2 : ℕ) (up1 up2 : UpstreamPayload V)
    (s0 : OrchState V)
    (hmem : s0.mem.lookup (requestKey d) = none)
    (hfile : s0.files.lookup (fileNameOf (requestKey d)) = none)
    (hm : t2 < t1 + memTtl) (hf : t2 < t1 + fileTtl) :
    ((fetch memTtl fileTtl d false t2 up2
        (fetch memTtl fileTtl d false t1 up1 s0).2).2).netCalls =
      s0.netCalls + 1 ∧
    ((fetch memTtl fileTtl d false t2 up2
        (fetch memTtl fileTtl d false t1 up1 s0).2).1).from_cache = true := by
  have hg1 : ∀ tt, (memGet s0.mem (requestKey d) tt).1 = none := by
    intro tt; simp [memGet, hmem]
  have hg2 : ∀ tt, (fileGet s0.files (fileNameOf (requestKey d)) fileTtl tt).1 = none := by
    intro tt; simp [fileGet, hfile]
  cases up1 with
  | structured v =>
      have e1 : (fetch memTtl fileTtl d false t1 (.structured v) s0).2 =
          ⟨memSet s0.mem (requestKey d) v memTtl t1, s0.files, s0.netCalls + 1⟩ := by
        simp [fetch, hg1, hg2]
      rw [e1]
      have hlk : (memSet s0.mem (requestKey d) v memTtl t1).lookup (requestKey d) =
          some ⟨v, t1 + memTtl⟩ := by
        simp [memSet, List.lookup]
      have hg : (memGet (memSet s0.mem (requestKey d) v memTtl t1) (requestKey d) t2).1 =
          some v := by
        simp [memGet, hlk, hm]
      constructor <;> simp [fetch, hg]
  | binary bb =>
      have e1 : (fetch memTtl fileTtl d false t1 (.binary bb) s0).2 =
          ⟨s0.mem, filePut s0.files (fileNameOf (requestKey d)) bb t1,
            s0.netCalls + 1⟩ := by
        simp [fetch, hg1, hg2]
      rw [e1]
      have hlk : (filePut s0.files (fileNameOf (requestKey d)) bb t1).lookup
          (fileNameOf (requestKey d)) = some ⟨bb, t1⟩ := by
        simp [filePut, List.lookup]
      have hg : (fileGet (filePut s0.files (fileNameOf (requestKey d)) bb t1)
          (fileNameOf (requestKey d)) fileTtl t2).1 = some bb := by
        simp [fileGet, hlk, hf]
      constructor <;> simp [fetch, hg1, hg]

/-- Witness for C1: a fresh orchestrator, two fetches at times 0 and 5
with a ten-second TTL on both tiers. -/
theorem c1_witness :
    ((fetch 10 10 ⟨"XIT001", []⟩ false 5 (.structured (0 : ℕ))
        (fetch 10 10 ⟨"XIT001", []⟩ false 0 (.structured (0 : ℕ))
          ⟨[], [], 0⟩).2).2).netCalls = 0 + 1 :=
  (c1_at_most_one_network_call 10 10 ⟨"XIT001", []⟩ 0 5 (.structured 0)
      (.structured 0) ⟨[], [], 0⟩ rfl rfl (by decide) (by decide)).1

/-- Claim C5: fetching an already-cached, unexpired key with
`force_refresh = true` performs a new upstream network call and
overwrites the matching cache tier's entry with the freshly fetched
result. -/
theorem c5_force_refresh_bypass {V : Type} (memTtl fileTtl : ℕ)
    (d : RequestDescriptor) (now : ℕ) (up : UpstreamPayload V) (s : OrchState V)
    (hcached : ((memGet s.mem (requestKey d) now).1).isSome = true ∨
      ((fileGet s.files (fileNameOf (requestKey d)) fileTtl now).1).isSome = true) :
    ((fetch memTtl fileTtl d true now up s).2).netCalls = s.netCalls + 1 ∧
    ((fetch memTtl fileTtl d true now up s).1).from_cache = false ∧
    (∀ v, up = .structured v →
      ((fetch memTtl fileTtl d true now up s).2).mem.lookup (requestKey d) =
        some ⟨v, now + memTtl⟩) ∧
    (∀ bb, up = .binary bb →
      ((fetch memTtl fileTtl d true now up s).2).files.lookup
          (fileNameOf (requestKey d)) = some ⟨bb, now⟩) := by
  have hfe : ∀ P : Prop, ¬ ((true = false) ∧ P) := by
    intro P h
    exact absurd h.1 (by decide)
  cases up with
  | structured v =>
      have e1 : fetch memTtl fileTtl d true now (.structured v) s =
          ({ data := some v, file_path := none, from_cache := false },
           ⟨memSet s.mem (requestKey d) v memTtl now, s.files, s.netCalls + 1⟩) := by
        unfold fetch
        rw [if_neg (hfe _), if_neg (hfe _)]
      rw [e1]
      refine ⟨rfl, rfl, ?_, ?_⟩
      · intro w hw
        obtain rfl : v = w := UpstreamPayload.structured.inj hw
        simp [memSet, List.lookup]
      · intro bb hbb
        exact absurd hbb (by simp)
  | binary bb =>
      have e1 : fetch memTtl fileTtl d true now (.binary bb) s =
          ({ data := none, file_path := some (fileNameOf (requestKey d)),
             from_cache := false },
           ⟨s.mem, filePut s.files (fileNameOf (requestKey d)) bb now,
             s.netCalls + 1⟩) := by
        unfold fetch
        rw [if_neg (hfe _), if_neg (hfe _)]
      rw [e1]
      refine ⟨rfl, rfl, ?_, ?_⟩
      · intro w hw
        exact absurd hw (by simp)
      · intro cc hcc
        obtain rfl : bb = cc := UpstreamPayload.binary.inj hcc
        simp [filePut, List.lookup]

/-- Witness for C5: a state whose memory tier already holds the key,
refreshed at time 0. -/
theorem c5_witness :
    ((fetch 10 10 ⟨"XIT001", []⟩ true 0 (.structured (3 : ℕ))
        ⟨[(requestKey ⟨"XIT001", []⟩, ⟨7, 100⟩)], [], 0⟩).2).netCalls = 0 + 1 :=
  (c5_force_refresh_bypass 10 10 ⟨"XIT001", []⟩ 0 (.structured 3)
      ⟨[(requestKey ⟨"XIT001", []⟩, ⟨7, 100⟩)], [], 0⟩
      (Or.inl (by simp [memGet, List.lookup]))).1

/-- Counterexample to claim C4 as stated: resolving a well-formed
transactions reference whose underlying file is gone (an empty cache
directory) does not produce the `ResourceNotFoundError` outcome — the
unguarded `open` raises `FileNotFoundError`. -/
theorem c4_claim_counterexample :
    resolve_resource (A := ℕ) "resource://mlit/transactions/expired.json".data
        (fun _ => none) ≠ Except.error PyErr.resourceNotFoundError ∧
    resolve_resource (A := ℕ) "resource://mlit/transactions/expired.json".data
        (fun _ => none) = Except.error PyErr.fileNotFoundError := by
  have e : resolve_resource (A := ℕ) "resource://mlit/transactions/expired.json".data
      (fun _ => none) = Except.error PyErr.fileNotFoundError := rfl
  refine ⟨?_, e⟩
  rw [e]
  intro h
  exact PyErr.noConfusion (Except.error.inj h)

/-- Claim C4 as amended: `resolve_resource` rejects URIs outside the
`resource://mlit/transactions/` namespace with `ValueError`; otherwise
it removes the namespace text from the URI to obtain the cache filename
and loads that file, raising `FileNotFoundError` (after only logging a
warning) when the file has been deleted or expired — not the
specification's `ResourceNotFoundError` outcome. -/
theorem c4_resolve_amended {A : Type} (uri : Key) (fs : Key → Option A) :
    (¬ txPre.isPrefixOf uri = true → resolve_resource uri fs = .error .valueError) ∧
    (txPre.isPrefixOf uri = true → fs (pyReplaceDel txPre uri) = none →
      resolve_resource uri fs = .error .fileNotFoundError) ∧
    (∀ v, txPre.isPrefixOf uri = true → fs (pyReplaceDel txPre uri) = some v →
      resolve_resource uri fs = .ok v) := by
  refine ⟨fun hp => ?_, fun hp hm => ?_, fun v hp hm => ?_⟩
  · unfold resolve_resource
    rw [if_pos hp]
  · unfold resolve_resource
    rw [if_neg (by simp [hp]), hm]
  · unfold resolve_resource
    rw [if_neg (by simp [hp]), hm]

/-- Witness for the amended C4 at a concrete reference over an empty
cache directory. -/
theorem c4_witness :
    resolve_resource (A := ℕ) "resource://mlit/transactions/gone.json".data
        (fun _ => none) = Except.error PyErr.fileNotFoundError :=
  (c4_resolve_amended "resource://mlit/transactions/gone.json".data
      (fun _ => none)).2.1 (by decide) rfl

end RealEstateHeatmap
